import Mathlib

/-!
# Permission records of the authz package

A shallow embedding of `enterprise/cmd/frontend/internal/authz/permissions.go`:
the three permission records (`UserPermissions`, `RepoPermissions`,
`UserPendingPermissions`), the expiry check `Expired`, the resolver
`AuthorizedRepos` and the diagnostics projection `TracingFields`.

Library types the file imports are modelled as follows.

* `time.Time` is the value the standard library stores: the flag for a
  monotonic reading, the wall seconds and nanoseconds, and the int64 field that
  holds the monotonic reading or, without one, the seconds. `Add` and `Before`
  follow the library: `Add` saturates the int64 seconds and drops a monotonic
  reading that leaves its range, `Before` compares monotonic readings when both
  times carry one.
* `*roaring.Bitmap` is `Option Bitmap`: `none` is the nil pointer, and a
  `Bitmap` is a finite set of uint32 values.
* `otlog.Field` is a key with a typed value.
* The declarations of `cmd/frontend/authz` that the file uses (the types
  `Perms`, `PermType`, `ProviderType`, the constant `PermRepos`, the Go
  conversions `string(x)`) and `time.Time.String` are parameters, collected
  in `Externals`.
-/

namespace Authz

/-! ## time.Time and time.Duration -/

/-- A `time.Duration`: a count of nanoseconds, an int64 in Go. -/
abbrev Duration := Int

/-- The constant `time.Minute`, in nanoseconds. -/
def Minute : Duration := 60 * 1000000000

/-- The value of an int64 computation in Go: the mathematical result wrapped
into `[-2^63, 2^63)`. -/
def int64 (x : Int) : Int :=
  (x + 9223372036854775808) % 18446744073709551616 - 9223372036854775808

/-- The constant `wallToInternal` of package time: the seconds from year 1 to
year 1885, where the wall seconds of a time with a monotonic reading start. -/
def wallToInternal : Int := (1884 * 365 + 1884 / 4 - 1884 / 100 + 1884 / 400) * 86400

/-- A `time.Time`, with the bit fields of `wall` decoded: `hasMonotonic` is the
top bit, `wallSec` the 33-bit seconds since 1885 (zero without a monotonic
reading), `nsec` the 30-bit nanoseconds. `ext` is the int64 field: the monotonic
reading in nanoseconds when `hasMonotonic`, else the seconds since year 1. The
location plays no part in `Add` and `Before` and is left out. -/
structure Time where
  hasMonotonic : Bool
  wallSec : Nat
  nsec : Nat
  ext : Int
deriving DecidableEq

/-- The values that are times: the fields are within their bit widths, the
nanoseconds are below one second, and the wall seconds are zero without a
monotonic reading. -/
def Time.Valid (t : Time) : Prop :=
  t.nsec < 1000000000 ∧ t.wallSec < 8589934592
    ∧ -9223372036854775808 ≤ t.ext ∧ t.ext < 9223372036854775808
    ∧ (t.hasMonotonic = false → t.wallSec = 0)

instance (t : Time) : Decidable t.Valid := by
  unfold Time.Valid
  infer_instance

/-- The method `sec`: the seconds since year 1. -/
def Time.sec (t : Time) : Int :=
  if t.hasMonotonic = true then wallToInternal + (t.wallSec : Int) else t.ext

/-- The method `stripMono`: the monotonic reading is dropped and `ext` takes the
seconds. -/
def Time.stripMono (t : Time) : Time :=
  if t.hasMonotonic = true then
    { hasMonotonic := false, wallSec := 0, nsec := t.nsec, ext := t.sec }
  else t

/-- The method `addSec`. With a monotonic reading the wall seconds are updated
in place while they fit their 33 bits; otherwise the reading is dropped and the
seconds are added in `ext`, saturating at `1<<63 - 1` and `-(1<<63 - 1)` when
the int64 sum overflows. -/
def Time.addSec (t : Time) (d : Int) : Time :=
  if t.hasMonotonic = true ∧ 0 ≤ int64 ((t.wallSec : Int) + d)
      ∧ int64 ((t.wallSec : Int) + d) ≤ 8589934591 then
    { t with wallSec := (int64 ((t.wallSec : Int) + d)).toNat }
  else
    let t1 := t.stripMono
    let sum := int64 (t1.ext + d)
    if decide (sum > t1.ext) = decide (d > 0) then { t1 with ext := sum }
    else if d > 0 then { t1 with ext := 9223372036854775807 }
    else { t1 with ext := -9223372036854775807 }

/-- The method `time.Time.Add`. The duration is split into whole seconds
(`d / 1e9`, truncating towards zero) and a remainder (`d % 1e9`, with the sign
of `d`); the remainder is added to the nanoseconds and a second is carried or
borrowed; the seconds are added by `addSec`; a monotonic reading that is still
there is moved by `d`, or dropped when that int64 sum overflows. -/
def Time.Add (t : Time) (d : Duration) : Time :=
  let dsec0 : Int := Int.tdiv d 1000000000
  let nsec0 : Int := (t.nsec : Int) + Int.tmod d 1000000000
  let dsec : Int :=
    if nsec0 ≥ 1000000000 then dsec0 + 1 else if nsec0 < 0 then dsec0 - 1 else dsec0
  let nsec : Int :=
    if nsec0 ≥ 1000000000 then nsec0 - 1000000000
    else if nsec0 < 0 then nsec0 + 1000000000 else nsec0
  let t1 : Time := ({ t with nsec := nsec.toNat } : Time).addSec dsec
  if t1.hasMonotonic = true then
    let te := int64 (t1.ext + d)
    if (d < 0 ∧ te > t1.ext) ∨ (d > 0 ∧ te < t1.ext) then t1.stripMono
    else { t1 with ext := te }
  else t1

/-- The method `time.Time.Before`: when both times carry a monotonic reading the
readings are compared; otherwise the seconds, and the nanoseconds on a tie. -/
def Time.Before (t u : Time) : Bool :=
  if t.hasMonotonic = true ∧ u.hasMonotonic = true then decide (t.ext < u.ext)
  else decide (t.sec < u.sec) || (decide (t.sec = u.sec) && decide (t.nsec < u.nsec))

/-- The position of a time on the wall clock, in nanoseconds since year 1. -/
def Time.wallInstant (t : Time) : Int := t.sec * 1000000000 + (t.nsec : Int)

/-- The sum `t + d` is representable: the addition neither saturates nor drops
the monotonic reading. Without a monotonic reading the seconds of the sum fit an
int64; with one, the wall seconds of the sum fit their 33 bits and the moved
reading fits an int64. -/
def Time.Representable (t : Time) (d : Duration) : Prop :=
  if t.hasMonotonic = true then
    wallToInternal * 1000000000 ≤ t.wallInstant + d
    ∧ t.wallInstant + d < (wallToInternal + 8589934592) * 1000000000
    ∧ -9223372036854775808 ≤ t.ext + d ∧ t.ext + d < 9223372036854775808
  else
    -9223372036854775808 * 1000000000 ≤ t.wallInstant + d
    ∧ t.wallInstant + d < 9223372036854775808 * 1000000000

instance (t : Time) (d : Duration) : Decidable (t.Representable d) := by
  unfold Time.Representable
  infer_instance

/-- The time `u` is not earlier than `t`, for two times of the same kind: both
carry a monotonic reading or neither does, `u` is not earlier on the wall clock
and, with monotonic readings, not earlier on the monotonic clock. -/
def Time.NotAfter (t u : Time) : Prop :=
  t.hasMonotonic = u.hasMonotonic ∧ t.wallInstant ≤ u.wallInstant
    ∧ (t.hasMonotonic = true → t.ext ≤ u.ext)

instance (t u : Time) : Decidable (t.NotAfter u) := by
  unfold Time.NotAfter
  infer_instance

/-! ## roaring.Bitmap -/

/-- A `roaring.Bitmap`: a finite set of uint32 values. -/
structure Bitmap where
  vals : Finset Nat
  bound : ∀ v ∈ vals, v < 4294967296
deriving DecidableEq

/-- The method `Bitmap.Contains(x uint32)`. -/
def Bitmap.Contains (b : Bitmap) (x : Nat) : Bool := decide (x ∈ b.vals)

/-- The method `Bitmap.GetCardinality()`, a uint64. -/
def Bitmap.GetCardinality (b : Bitmap) : Nat := b.vals.card

/-- The result of `roaring.New()`: a present bitmap with no members. -/
def Bitmap.New : Bitmap := ⟨∅, by simp⟩

/-- The Go conversion `uint32(x)` of an int32 `x`: the value modulo `2^32`. -/
def uint32 (x : Int) : Nat := (x % 4294967296).toNat

/-- The integer `id` is a member of the bitmap: it is one of the values of the
set. This is membership in the words of the specification, with no conversion
of the integer. -/
def Bitmap.hasID (b : Bitmap) (id : Int) : Bool := decide (0 ≤ id ∧ id.toNat ∈ b.vals)

/-! ## Declarations taken from other packages -/

/-- What `permissions.go` uses from other packages, taken as parameters. Package
`cmd/frontend/authz` declares the types `Perms`, `PermType` and `ProviderType`
and the constant `PermRepos`; the file compares a `PermType` with `!=` and
converts values of all three types with the Go conversion `string(x)`.
`timeString` is the method `time.Time.String`. -/
structure Externals where
  Perms : Type
  PermType : Type
  ProviderType : Type
  PermRepos : PermType
  permTypeDecEq : DecidableEq PermType
  stringOfPerms : Perms → String
  stringOfPermType : PermType → String
  stringOfProviderType : ProviderType → String
  timeString : Time → String

instance (X : Externals) : DecidableEq X.PermType := X.permTypeDecEq

/-- A `types.Repo`, the candidate of a resolver query. `ID` is its int32
identifier, the only field the resolver reads; `Name` stands for the fields it
never reads. A candidate is a non-nil `*types.Repo`. -/
structure Repo where
  ID : Int
  Name : String
deriving DecidableEq

/-- An `authz.RepoPerms`: a repository together with the permissions on it. -/
structure RepoPerms (X : Externals) where
  Repo : Repo
  Perms : X.Perms

/-- An `otlog.Field`, by the function that built it: `otlog.Int32`,
`otlog.String` or `otlog.Uint64`, each with the key and the value it was given. -/
inductive Field where
  | int32 (key : String) (val : Int)
  | string (key : String) (val : String)
  | uint64 (key : String) (val : Nat)
deriving DecidableEq

/-- The key of a field. -/
def Field.key : Field → String
  | .int32 k _ => k
  | .string k _ => k
  | .uint64 k _ => k

/-! ## UserPermissions -/

/-- The struct `UserPermissions`. The field `Type` is spelled `Type_`. -/
structure UserPermissions (X : Externals) where
  UserID : Int
  Perm : X.Perms
  Type_ : X.PermType
  IDs : Option Bitmap
  Provider : X.ProviderType
  UpdatedAt : Time

/-- The method `(*UserPermissions).Expired`:
`!now.Before(p.UpdatedAt.Add(ttl))`. -/
def UserPermissions.Expired {X : Externals} (p : UserPermissions X) (ttl : Duration)
    (now : Time) : Bool :=
  !(now.Before (p.UpdatedAt.Add ttl))

/-- The loop of `AuthorizedRepos`: `perms` is the slice built so far, and every
candidate `r` with `r.ID != 0 && p.IDs.Contains(uint32(r.ID))` is appended to it
as `RepoPerms{Repo: r, Perms: p.Perm}`. -/
def UserPermissions.authorizedLoop {X : Externals} (perm : X.Perms) (ids : Bitmap) :
    List Repo → List (RepoPerms X) → List (RepoPerms X)
  | [], perms => perms
  | r :: rest, perms =>
    if r.ID ≠ 0 ∧ ids.Contains (uint32 r.ID) = true then
      authorizedLoop perm ids rest (perms ++ [⟨r, perm⟩])
    else
      authorizedLoop perm ids rest perms

/-- The method `(*UserPermissions).AuthorizedRepos`. The guard
`p.Type != authz.PermRepos || p.IDs == nil || p.IDs.GetCardinality() == 0`
returns the empty slice; otherwise the loop runs from an empty slice. -/
def UserPermissions.AuthorizedRepos {X : Externals} (p : UserPermissions X)
    (repos : List Repo) : List (RepoPerms X) :=
  if p.Type_ ≠ X.PermRepos then []
  else
    match p.IDs with
    | none => []
    | some ids =>
      if ids.GetCardinality = 0 then []
      else UserPermissions.authorizedLoop p.Perm ids repos []

/-- The method `(*UserPermissions).TracingFields`. -/
def UserPermissions.TracingFields {X : Externals} (p : UserPermissions X) : List Field :=
  let fs := [
    Field.int32 "UserPermissions.UserID" p.UserID,
    Field.string "UserPermissions.Perm" (X.stringOfPerms p.Perm),
    Field.string "UserPermissions.Type" (X.stringOfPermType p.Type_),
    Field.string "UserPermissions.Provider" (X.stringOfProviderType p.Provider)]
  match p.IDs with
  | some ids =>
    fs ++ [
      Field.uint64 "UserPermissions.IDs.Count" ids.GetCardinality,
      Field.string "UserPermissions.UpdatedAt" (X.timeString p.UpdatedAt)]
  | none => fs

/-! ## RepoPermissions -/

/-- The struct `RepoPermissions`. It has no `Type` field. -/
structure RepoPermissions (X : Externals) where
  RepoID : Int
  Perm : X.Perms
  UserIDs : Option Bitmap
  Provider : X.ProviderType
  UpdatedAt : Time

/-- The method `(*RepoPermissions).Expired`:
`!now.Before(p.UpdatedAt.Add(ttl))`. -/
def RepoPermissions.Expired {X : Externals} (p : RepoPermissions X) (ttl : Duration)
    (now : Time) : Bool :=
  !(now.Before (p.UpdatedAt.Add ttl))

/-- The method `(*RepoPermissions).TracingFields`. -/
def RepoPermissions.TracingFields {X : Externals} (p : RepoPermissions X) : List Field :=
  let fs := [
    Field.int32 "RepoPermissions.RepoID" p.RepoID,
    Field.string "RepoPermissions.Perm" (X.stringOfPerms p.Perm),
    Field.string "RepoPermissions.Provider" (X.stringOfProviderType p.Provider)]
  match p.UserIDs with
  | some ids =>
    fs ++ [
      Field.uint64 "RepoPermissions.UserIDs.Count" ids.GetCardinality,
      Field.string "RepoPermissions.UpdatedAt" (X.timeString p.UpdatedAt)]
  | none => fs

/-! ## UserPendingPermissions -/

/-- The struct `UserPendingPermissions`. It has no `Provider` field, and
`TracingFields` is its only method. -/
structure UserPendingPermissions (X : Externals) where
  ID : Int
  BindID : String
  Perm : X.Perms
  Type_ : X.PermType
  IDs : Option Bitmap
  UpdatedAt : Time

/-- The method `(*UserPendingPermissions).TracingFields`. -/
def UserPendingPermissions.TracingFields {X : Externals} (p : UserPendingPermissions X) :
    List Field :=
  let fs := [
    Field.int32 "UserPendingPermissions.ID" p.ID,
    Field.string "UserPendingPermissions.BindID" p.BindID,
    Field.string "UserPendingPermissions.Perm" (X.stringOfPerms p.Perm),
    Field.string "UserPendingPermissions.Type" (X.stringOfPermType p.Type_)]
  match p.IDs with
  | some ids =>
    fs ++ [
      Field.uint64 "UserPendingPermissions.IDs.Count" ids.GetCardinality,
      Field.string "UserPendingPermissions.UpdatedAt" (X.timeString p.UpdatedAt)]
  | none => fs

/-! ## The authorized set -/

/-- The authorized set of a record as a set, a nil bitmap counting as empty. -/
def idsOrEmpty : Option Bitmap → Finset Nat
  | none => ∅
  | some ids => ids.vals

/-! ## A concrete instance, for evaluating on examples -/

/-- Sample permissions: the actions none, read and write, for the bitset values
0, 2 and 4. -/
inductive SamplePerms where
  | None
  | Read
  | Write
deriving DecidableEq

/-- A concrete instance of the external declarations: permissions are
`SamplePerms`, whose conversion `string(x)` is the string of the one character
with the bitset value as its code; kinds and providers are strings, and
`PermRepos` is the kind "repos". Examples are evaluated in this instance. -/
def sampleExternals : Externals where
  Perms := SamplePerms
  PermType := String
  ProviderType := String
  PermRepos := "repos"
  permTypeDecEq := fun a b => String.decEq a b
  stringOfPerms := fun
    | .None => "\x00"
    | .Read => "\x02"
    | .Write => "\x04"
  stringOfPermType := fun s => s
  stringOfProviderType := fun s => s
  timeString := fun t => toString t.sec ++ "." ++ toString t.nsec

/-- The instant `T` of the examples, without a monotonic reading: second
63800000000 since year 1. -/
def sampleTime : Time := ⟨false, 0, 0, 63800000000⟩

/-- A time with a monotonic reading: wall second 4300000000 since 1885, five
seconds on the monotonic clock. -/
def sampleMonoTime : Time := ⟨true, 4300000000, 0, 5000000000⟩

/-- A time ten seconds before the last second an int64 can hold. -/
def nearMaxTime : Time := ⟨false, 0, 0, 9223372036854775797⟩

/-- The time at the last second an int64 can hold. -/
def maxTime : Time := ⟨false, 0, 0, 9223372036854775807⟩

/-- A time 299 seconds before the last second an int64 can hold. -/
def beforeMaxTime : Time := ⟨false, 0, 0, 9223372036854775508⟩

/-- An update time with a monotonic reading: wall second 1000 since 1885, fifty
seconds on the monotonic clock. -/
def monoUpdated : Time := ⟨true, 1000, 0, 50000000000⟩

/-- A later time on the monotonic clock, 400 seconds, whose wall clock was set
back to second 900 since 1885. -/
def monoNow : Time := ⟨true, 900, 0, 400000000000⟩

/-- A time without a monotonic reading at wall second 950 since 1885, which is
second 59453309750 since year 1. -/
def wallLater : Time := ⟨false, 0, 0, 59453309750⟩

/-- The bitmap `{4294967295}`, whose member is `uint32(-1)`. -/
def bitmapMax : Bitmap := ⟨{4294967295}, by decide⟩

/-- A repository-kind record of user 7 with permission Read over the given
bitmap. -/
def sampleUser (ids : Option Bitmap) : UserPermissions sampleExternals where
  UserID := 7
  Perm := SamplePerms.Read
  Type_ := "repos"
  IDs := ids
  Provider := "bitbucketServer"
  UpdatedAt := sampleTime

/-- A record of repository 3 with permission Read over the given bitmap of
users. -/
def sampleRepoPermissions (ids : Option Bitmap) : RepoPermissions sampleExternals where
  RepoID := 3
  Perm := SamplePerms.Read
  UserIDs := ids
  Provider := "bitbucketServer"
  UpdatedAt := sampleTime

/-- A repository-kind pending record bound to the name "alice", with permission
Read over the given bitmap. -/
def samplePending (ids : Option Bitmap) : UserPendingPermissions sampleExternals where
  ID := 11
  BindID := "alice"
  Perm := SamplePerms.Read
  Type_ := "repos"
  IDs := ids
  UpdatedAt := sampleTime

/-- The candidate with the given ID. -/
def sampleRepo (id : Int) : Repo := ⟨id, "repo"⟩

/-- The bitmap `{2, 5}`. -/
def bitmap25 : Bitmap := ⟨{2, 5}, by decide⟩

end Authz

/-!
# The users service of package backend

A shallow embedding of `services/backend/users.go`. The stores and services the
file reaches through the context act on a `World`; every call to one of them is
recorded in a log, so that "no call is made" can be stated. Types and functions
declared in other packages are parameters, collected in `Deps`. A Go result
`(*T, error)` is a pair of options, `none` standing for nil.
-/

namespace Backend

/-- A `sourcegraph.BetaRegistration`, by the fields that `RegisterBeta` reads or
writes. -/
structure BetaRegistration where
  Email : String
  FirstName : String
  LastName : String
  Languages : List String
  Editors : List String
  Message : String
deriving DecidableEq

/-- A `sourcegraph.BetaResponse`. -/
structure BetaResponse where
  EmailAddress : String
deriving DecidableEq

/-- A value of the `MergeFields` map that `RegisterBeta` builds: a string, or
`mailchimp.Array` of a list of strings. -/
inductive MergeField where
  | str (s : String)
  | array (xs : List String)
deriving DecidableEq

/-- The `mailchimp.PutListsMembersOptions` that `RegisterBeta` builds, the
entries of the map in the order of the source. -/
structure PutListsMembersOptions where
  StatusIfNew : String
  EmailAddress : String
  MergeFields : List (String × MergeField)
deriving DecidableEq

/-- What `users.go` uses from other packages, taken as parameters: the types of
`api/sourcegraph` with the fields and methods the file touches (`UID`, `Spec`,
`Betas`, `Email`, `Primary`), `fmt.Errorf`, the actor of the context, and the
stores and services, each a function of its arguments and the world that
returns its result and the world after the call. -/
structure Deps where
  Context : Type
  World : Type
  Error : Type
  UserSpec : Type
  User : Type
  EmailAddr : Type
  EmailAddrList : Type
  UID : UserSpec → Int
  Spec : User → UserSpec
  Betas : User → List String
  setBetas : User → List String → User
  Email : EmailAddr → String
  Primary : Option EmailAddrList → Option EmailAddr × Option Error
  Errorf : String → Error
  actorUserSpec : Context → UserSpec
  storeUsersGet : Context → UserSpec → World → (Option User × Option Error) × World
  svcUsersListEmails :
    Context → UserSpec → World → (Option EmailAddrList × Option Error) × World
  svcUsersGet : Context → UserSpec → World → (Option User × Option Error) × World
  svcAccountsUpdate : Context → User → World → Option Error × World
  chimputilClient : World → Option Error × World
  PutListsMembers : String → String → PutListsMembersOptions → World → Option Error × World
  SourcegraphBetaListID : String
  SubscriberHash : String → String

/-- A call to a store, a service or the mailing-list client, with its
arguments. -/
inductive Call (D : Deps) where
  | storeUsersGet (spec : D.UserSpec)
  | svcUsersListEmails (spec : D.UserSpec)
  | svcUsersGet (spec : D.UserSpec)
  | svcAccountsUpdate (user : D.User)
  | chimputilClient
  | PutListsMembers (listID hash : String) (opts : PutListsMembersOptions)

/-- How a call ends: it returns a value, or it panics on a nil pointer. -/
inductive Outcome (α : Type) where
  | returned (a : α)
  | panic

/-- The method `(*users).Get`: `store.UsersFromContext(ctx).Get(ctx, *user)`.
It gives the result of the store, the world after the call and the call made. -/
def Get (D : Deps) (ctx : D.Context) (user : D.UserSpec) (w : D.World) :
    (Option D.User × Option D.Error) × D.World × List (Call D) :=
  ((D.storeUsersGet ctx user w).1, (D.storeUsersGet ctx user w).2, [Call.storeUsersGet user])

/-- A run of `resolveUserSpec` or `ensureUIDPopulated`: the error returned (`none`
for nil) or a panic, the value of `*userSpec` after the call, the world after the
call and the calls made. -/
structure SpecRun (D : Deps) where
  result : Outcome (Option D.Error)
  userSpec : D.UserSpec
  world : D.World
  calls : List (Call D)

/-- The method `resolveUserSpec`: it calls `s.Get`; a non-nil error is returned
at once; otherwise `*userSpec = user.Spec()` and nil is returned. A nil user with
a nil error makes `user.Spec()` a nil dereference. -/
def resolveUserSpec (D : Deps) (ctx : D.Context) (userSpec : D.UserSpec) (w : D.World) :
    SpecRun D :=
  match Get D ctx userSpec w with
  | ((_, some err), w1, calls) => ⟨.returned (some err), userSpec, w1, calls⟩
  | ((some user, none), w1, calls) => ⟨.returned none, D.Spec user, w1, calls⟩
  | ((none, none), w1, calls) => ⟨.panic, userSpec, w1, calls⟩

/-- The method `ensureUIDPopulated`: nil at once when `userSpec.UID != 0`,
otherwise what `resolveUserSpec` does. -/
def ensureUIDPopulated (D : Deps) (ctx : D.Context) (userSpec : D.UserSpec) (w : D.World) :
    SpecRun D :=
  if D.UID userSpec ≠ 0 then ⟨.returned none, userSpec, w, []⟩
  else resolveUserSpec D ctx userSpec w

/-- A run of `RegisterBeta`: the pair `(*BetaResponse, error)` returned or a
panic, the value of `*opt` after the call, the world after the call and the calls
made. -/
structure BetaRun (D : Deps) where
  result : Outcome (Option BetaResponse × Option D.Error)
  opt : BetaRegistration
  world : D.World
  calls : List (Call D)

/-- The last part of `RegisterBeta`, from `chimputil.Client()` on: the client is
obtained, the member is put on the beta list, and the response carries the email
address. `calls` are the calls made before. -/
def RegisterBeta.subscribe (D : Deps) (opt : BetaRegistration) (w : D.World)
    (calls : List (Call D)) : BetaRun D :=
  match D.chimputilClient w with
  | (some err, w1) => ⟨.returned (none, some err), opt, w1, calls ++ [Call.chimputilClient]⟩
  | (none, w1) =>
    let opts : PutListsMembersOptions :=
      { StatusIfNew := "subscribed"
        EmailAddress := opt.Email
        MergeFields :=
          [("FNAME", MergeField.str opt.FirstName),
           ("LNAME", MergeField.str opt.LastName),
           ("LANGUAGE", MergeField.array opt.Languages),
           ("EDITOR", MergeField.array opt.Editors),
           ("MESSAGE", MergeField.str opt.Message)] }
    let calls1 := calls ++ [Call.chimputilClient,
      Call.PutListsMembers D.SourcegraphBetaListID (D.SubscriberHash opt.Email) opts]
    match D.PutListsMembers D.SourcegraphBetaListID (D.SubscriberHash opt.Email) opts w1 with
    | (some err, w2) => ⟨.returned (none, some err), opt, w2, calls1⟩
    | (none, w2) => ⟨.returned (some ⟨opt.Email⟩, none), opt, w2, calls1⟩

/-- The method `RegisterBeta`. After reading the actor of the context it rejects
a request whose `Email` is not empty. Otherwise it lists the emails of the actor,
takes the primary one into `opt.Email`, gets the user (the error of this call is
not looked at, so a nil user makes `user.Betas` a nil dereference), gives a user
without betas the beta "pending" through the accounts service, and subscribes
the address. -/
def RegisterBeta (D : Deps) (ctx : D.Context) (opt : BetaRegistration) (w : D.World) :
    BetaRun D :=
  if opt.Email ≠ "" then
    ⟨.returned (none, some (D.Errorf
      "BetaRegistration.Email field is currently unsupported (leave it blank)")), opt, w, []⟩
  else
    let userSpec := D.actorUserSpec ctx
    let calls1 : List (Call D) := [Call.svcUsersListEmails userSpec]
    match D.svcUsersListEmails ctx userSpec w with
    | ((_, some err), w1) => ⟨.returned (none, some err), opt, w1, calls1⟩
    | ((emails, none), w1) =>
      match D.Primary emails with
      | (_, some err) => ⟨.returned (none, some err), opt, w1, calls1⟩
      | (none, none) => ⟨.panic, opt, w1, calls1⟩
      | (some primary, none) =>
        let opt1 : BetaRegistration := { opt with Email := D.Email primary }
        let calls2 := calls1 ++ [Call.svcUsersGet userSpec]
        match D.svcUsersGet ctx userSpec w1 with
        | ((none, _), w2) => ⟨.panic, opt1, w2, calls2⟩
        | ((some user, _), w2) =>
          if (D.Betas user).length = 0 then
            let user1 := D.setBetas user (D.Betas user ++ ["pending"])
            let calls3 := calls2 ++ [Call.svcAccountsUpdate user1]
            match D.svcAccountsUpdate ctx user1 w2 with
            | (some err, w3) => ⟨.returned (none, some err), opt1, w3, calls3⟩
            | (none, w3) => RegisterBeta.subscribe D opt1 w3 calls3
          else
            RegisterBeta.subscribe D opt1 w2 calls2

/-! ## A concrete instance, for evaluating on examples -/

/-- Sample user specs: a login and a UID. -/
structure SampleSpec where
  Login : String
  UID : Int
deriving DecidableEq

/-- Sample users: a login, a UID and the betas. -/
structure SampleUser where
  Login : String
  UID : Int
  Betas : List String
deriving DecidableEq

/-- A concrete instance of the parameters. The context carries the spec of the
actor; the world counts the calls served by the stores and services; errors are
their messages. The one user is "alice", UID 1, without betas, whose only email
is "alice@example.com"; a lookup of any other login fails. -/
abbrev sampleDeps : Deps where
  Context := SampleSpec
  World := Nat
  Error := String
  UserSpec := SampleSpec
  User := SampleUser
  EmailAddr := String
  EmailAddrList := List String
  UID := fun s => s.UID
  Spec := fun u => ⟨u.Login, u.UID⟩
  Betas := fun u => u.Betas
  setBetas := fun u b => { u with Betas := b }
  Email := fun e => e
  Primary := fun l =>
    match l with
    | some (e :: _) => (some e, none)
    | _ => (none, some "no primary email")
  Errorf := fun msg => msg
  actorUserSpec := fun c => c
  storeUsersGet := fun _ spec w =>
    if spec.Login = "alice" then ((some ⟨"alice", 1, []⟩, none), w + 1)
    else ((none, some "user not found"), w + 1)
  svcUsersListEmails := fun _ spec w =>
    if spec.Login = "alice" then ((some ["alice@example.com"], none), w + 1)
    else ((none, some "user not found"), w + 1)
  svcUsersGet := fun _ spec w =>
    if spec.Login = "alice" then ((some ⟨"alice", 1, []⟩, none), w + 1)
    else ((none, some "user not found"), w + 1)
  svcAccountsUpdate := fun _ _ w => (none, w + 1)
  chimputilClient := fun w => (none, w)
  PutListsMembers := fun _ _ _ w => (none, w + 1)
  SourcegraphBetaListID := "beta"
  SubscriberHash := fun e => "hash of " ++ e

/-- A beta registration of Alice with the given `Email` field. -/
def sampleRegistration (email : String) : BetaRegistration where
  Email := email
  FirstName := "Alice"
  LastName := "Liddell"
  Languages := ["go"]
  Editors := ["vim"]
  Message := "hello"

end Backend

/-!
# The zoekt procfile of the server command

A shallow embedding of `cmd/server/zoekt.go`. `strconv.ParseBool` is modelled by
the strings it accepts; `filepath.Join` and the package variables
`frontendInternalHost` and `zoektHost` are parameters; `fmt.Sprintf` with `%s`
verbs is string concatenation; the environment is a function from names to
values, the empty string for an unset name.
-/

namespace Server

/-- A `*strconv.NumError`, the error of a failed conversion. -/
structure NumError where
  Func : String
  Num : String
  Err : String
deriving DecidableEq

/-- The function `strconv.ParseBool`: it accepts 1, t, T, TRUE, true, True as
true and 0, f, F, FALSE, false, False as false; any other string gives false and
a syntax error. -/
def ParseBool (str : String) : Bool × Option NumError :=
  if str = "1" ∨ str = "t" ∨ str = "T" ∨ str = "true" ∨ str = "TRUE" ∨ str = "True" then
    (true, none)
  else if str = "0" ∨ str = "f" ∨ str = "F" ∨ str = "false" ∨ str = "FALSE"
      ∨ str = "False" then
    (false, none)
  else
    (false, some ⟨"ParseBool", str, "invalid syntax"⟩)

/-- What `zoekt.go` uses from elsewhere, taken as parameters: the package
variables `frontendInternalHost` and `zoektHost`, and `filepath.Join` of two
elements. -/
structure Decls where
  frontendInternalHost : String
  zoektHost : String
  Join : String → String → String

/-- The function `maybeZoektProcfile`. The result is the pair `([]string, error)`,
`none` standing for nil. -/
def maybeZoektProcfile (E : Decls) (getenv : String → String) (dataDir : String) :
    Option (List String) × Option NumError :=
  match ParseBool (getenv "INDEXED_SEARCH") with
  | (_, some err) => (none, some err)
  | (enabled, none) =>
    if !enabled then (none, none)
    else
      let indexDir := E.Join dataDir "zoekt/index"
      (some [
        "zoekt-indexserver: zoekt-sourcegraph-indexserver -sourcegraph_url http://"
          ++ E.frontendInternalHost ++ " -index " ++ indexDir ++ " -interval 1m",
        "zoekt-webserver: zoekt-webserver -rpc -pprof -listen "
          ++ E.zoektHost ++ " -index " ++ indexDir], none)

/-- A concrete instance of the parameters: hosts on the loopback address and a
join that puts a slash between its two elements. -/
def sampleDecls : Decls where
  frontendInternalHost := "127.0.0.1:3090"
  zoektHost := "127.0.0.1:6070"
  Join := fun a b => a ++ "/" ++ b

/-- The environment in which `INDEXED_SEARCH` has the given value and every other
name is unset. -/
def sampleEnv (value : String) : String → String :=
  fun name => if name = "INDEXED_SEARCH" then value else ""

end Server

namespace Authz

/-! ## The time model: exact addition and comparison -/

/-- Truncated remainder by a positive modulus lies strictly between `-m` and `m`:
this is the range of Go's `d % 1e9` on a signed duration. -/
theorem tmod_bounds (d m : Int) (hm : 0 < m) : -m < Int.tmod d m ∧ Int.tmod d m < m := by
  refine ⟨?_, Int.tmod_lt_of_pos d hm⟩
  rcases Int.le_total 0 d with hd | hd
  · have := Int.tmod_nonneg m hd
    omega
  · have h1 : Int.tmod d m = -(Int.tmod (-d) m) := by
      have h2 := Int.tmod_add_tdiv d m
      have h3 := Int.tmod_add_tdiv (-d) m
      have h4 : Int.tdiv (-d) m = -(Int.tdiv d m) := Int.neg_tdiv d m
      rw [h4] at h3
      have h5 : m * -(Int.tdiv d m) = -(m * Int.tdiv d m) := by ring
      rw [h5] at h3
      omega
    have h6 := Int.tmod_lt_of_pos (-d) hm
    omega

/-- The value of `wallToInternal`. -/
theorem wallToInternal_eq : wallToInternal = 59453308800 := by decide

/-- An int64 computation whose result is in range does not wrap. -/
theorem int64_of_range (x : Int) (h1 : -9223372036854775808 ≤ x) (h2 : x < 9223372036854775808) :
    int64 x = x := by
  unfold int64
  omega

/-- Without a monotonic reading and without overflow, `addSec` adds to `ext`. -/
theorem Time.addSec_wall (ws ns : Nat) (e d : Int)
    (h1 : -9223372036854775808 ≤ e + d) (h2 : e + d < 9223372036854775808) :
    (⟨false, ws, ns, e⟩ : Time).addSec d = ⟨false, ws, ns, e + d⟩ := by
  simp only [Time.addSec, Time.stripMono, Bool.false_eq_true, false_and, if_false,
    int64_of_range _ h1 h2]
  have h3 : decide (e + d > e) = decide (d > 0) := by
    rw [decide_eq_decide]
    omega
  rw [if_pos h3]

/-- With a monotonic reading, `addSec` adds to the wall seconds while they fit
their 33 bits. -/
theorem Time.addSec_mono (ws ns : Nat) (e d : Int) (h1 : 0 ≤ (ws : Int) + d)
    (h2 : (ws : Int) + d ≤ 8589934591) :
    (⟨true, ws, ns, e⟩ : Time).addSec d = ⟨true, ((ws : Int) + d).toNat, ns, e⟩ := by
  have h3 : int64 ((ws : Int) + d) = (ws : Int) + d := int64_of_range _ (by omega) (by omega)
  unfold Time.addSec
  simp only [h3]
  rw [if_pos ⟨trivial, h1, h2⟩]

/-- The carry of `Add`: the seconds added and the nanosecond field are the
quotient and the remainder of `nsec + d` by `1e9`. -/
theorem Time.Add_carry (ns : Nat) (d : Int) (hns : ns < 1000000000) :
    (if (ns : Int) + Int.tmod d 1000000000 ≥ 1000000000 then Int.tdiv d 1000000000 + 1
      else if (ns : Int) + Int.tmod d 1000000000 < 0 then Int.tdiv d 1000000000 - 1
      else Int.tdiv d 1000000000) = ((ns : Int) + d) / 1000000000
    ∧ (if (ns : Int) + Int.tmod d 1000000000 ≥ 1000000000 then
        (ns : Int) + Int.tmod d 1000000000 - 1000000000
      else if (ns : Int) + Int.tmod d 1000000000 < 0 then
        (ns : Int) + Int.tmod d 1000000000 + 1000000000
      else (ns : Int) + Int.tmod d 1000000000) = ((ns : Int) + d) % 1000000000 := by
  have hb := tmod_bounds d 1000000000 (by decide)
  have hd := Int.tmod_add_tdiv d 1000000000
  constructor <;> split_ifs <;> omega

/-- When the sum is representable, `Add` is exact: the result still carries a
monotonic reading exactly when the argument does, its wall instant and its
monotonic reading are those of the argument moved by `d`, and it is valid. -/
theorem Time.Add_exact (t : Time) (d : Duration) (hv : t.Valid) (hr : t.Representable d) :
    (t.Add d).Valid ∧ (t.Add d).hasMonotonic = t.hasMonotonic
    ∧ (t.Add d).wallInstant = t.wallInstant + d
    ∧ (t.hasMonotonic = true → (t.Add d).ext = t.ext + d) := by
  rcases t with ⟨m, ws, ns, e⟩
  have hw := wallToInternal_eq
  obtain ⟨hns, hws, he1, he2, hz⟩ := hv
  simp only at hns hws he1 he2 hz
  have hc := Time.Add_carry ns d hns
  cases m
  · simp only [Time.Representable, Time.wallInstant, Time.sec, Bool.false_eq_true,
      if_false] at hr
    have hA : (⟨false, ws, ns, e⟩ : Time).Add d
        = ⟨false, ws, (((ns : Int) + d) % 1000000000).toNat, e + ((ns : Int) + d) / 1000000000⟩ := by
      simp only [Time.Add, hc.1, hc.2]
      rw [Time.addSec_wall _ _ _ _ (by omega) (by omega)]
      simp
    rw [hA]
    refine ⟨⟨?_, hws, ?_, ?_, hz⟩, rfl, ?_, ?_⟩
    · simp only
      omega
    · simp only
      omega
    · simp only
      omega
    · simp only [Time.wallInstant, Time.sec, Bool.false_eq_true, if_false]
      omega
    · intro h
      simp at h
  · simp only [Time.Representable, Time.wallInstant, Time.sec, if_true] at hr
    have hA : (⟨true, ws, ns, e⟩ : Time).Add d
        = ⟨true, ((ws : Int) + ((ns : Int) + d) / 1000000000).toNat,
            (((ns : Int) + d) % 1000000000).toNat, e + d⟩ := by
      simp only [Time.Add, hc.1, hc.2]
      rw [Time.addSec_mono _ _ _ _ (by omega) (by omega)]
      have h3 : int64 (e + d) = e + d := int64_of_range _ hr.2.2.1 hr.2.2.2
      simp only [if_true, h3]
      have hcond : ¬(d < 0 ∧ e + d > e ∨ d > 0 ∧ e + d < e) := by
        rintro (⟨ha, hb⟩ | ⟨ha, hb⟩)
        · have ha2 : @LT.lt Int _ d 0 := ha
          omega
        · have ha2 : @LT.lt Int _ 0 d := ha
          omega
      rw [if_neg hcond]
    rw [hA]
    refine ⟨⟨?_, ?_, ?_, ?_, ?_⟩, rfl, ?_, ?_⟩
    · simp only
      omega
    · simp only
      omega
    · simp only
      omega
    · simp only
      omega
    · intro h
      simp at h
    · simp only [Time.wallInstant, Time.sec, if_true]
      omega
    · intro _
      rfl

/-- On valid times `Before` compares the monotonic readings when both times
carry one, and the wall instants otherwise. -/
theorem Time.Before_iff (t u : Time) (ht : t.Valid) (hu : u.Valid) :
    t.Before u = true ↔
      if t.hasMonotonic = true ∧ u.hasMonotonic = true then t.ext < u.ext
      else t.wallInstant < u.wallInstant := by
  have h1 := ht.1
  have h2 := hu.1
  unfold Time.Before Time.wallInstant
  split_ifs with h
  · simp
  · simp only [Bool.or_eq_true, Bool.and_eq_true, decide_eq_true_eq]
    constructor
    · rintro (h | ⟨h3, h4⟩) <;> omega
    · intro h5
      by_cases hs : t.sec < u.sec
      · exact Or.inl hs
      · right
        constructor <;> omega

/-! ## Expiry -/

/-- The nanoseconds of the result of `Add` are below one second. -/
theorem Time.Add_nsec_lt (t : Time) (d : Duration) (h : t.nsec < 1000000000) :
    (t.Add d).nsec < 1000000000 := by
  have hc := Time.Add_carry t.nsec d h
  have hn : (((t.nsec : Int) + d) % 1000000000).toNat < 1000000000 := by omega
  simp only [Time.Add, hc.1, hc.2, Time.addSec, Time.stripMono]
  split_ifs <;> exact hn

/-- The test of `Expired`, for a representable deadline: the record is expired
exactly when `now` has reached `t + d`, on the monotonic clock when both `t` and
`now` carry a monotonic reading and on the wall clock otherwise. -/
theorem Time.not_Before_Add_iff (t now : Time) (d : Duration) (ht : t.Valid)
    (hn : now.Valid) (hr : t.Representable d) :
    (!(now.Before (t.Add d))) = true ↔
      if t.hasMonotonic = true ∧ now.hasMonotonic = true then t.ext + d ≤ now.ext
      else t.wallInstant + d ≤ now.wallInstant := by
  obtain ⟨hv, hm, hw, he⟩ := Time.Add_exact t d ht hr
  rw [Bool.not_eq_true', ← Bool.not_eq_true, Time.Before_iff now (t.Add d) hn hv, hm, hw]
  by_cases h1 : t.hasMonotonic = true
  · by_cases h2 : now.hasMonotonic = true
    · rw [if_pos ⟨h2, h1⟩, if_pos ⟨h1, h2⟩, he h1]
      omega
    · rw [if_neg (fun h => h2 h.1), if_neg (fun h => h2 h.2)]
      omega
  · rw [if_neg (fun h => h1 h.2), if_neg (fun h => h1 h.1)]
    omega

/-- For a fixed deadline `dl`, a time that has reached it is followed only by
times that have reached it, among times of the same kind. -/
theorem Time.not_Before_mono (dl now now2 : Time) (hd : dl.nsec < 1000000000)
    (hn : now.Valid) (hn2 : now2.Valid) (h : (!(now.Before dl)) = true)
    (hle : now.NotAfter now2) : (!(now2.Before dl)) = true := by
  obtain ⟨hk, hw, hm⟩ := hle
  have h1 := hn.1
  have h2 := hn2.1
  rw [Bool.not_eq_true', ← Bool.not_eq_true] at h ⊢
  unfold Time.Before at h ⊢
  unfold Time.wallInstant at hw
  rw [← hk]
  by_cases hb : now.hasMonotonic = true ∧ dl.hasMonotonic = true
  · rw [if_pos hb] at h ⊢
    have := hm hb.1
    simp only [decide_eq_true_eq] at h ⊢
    omega
  · rw [if_neg hb] at h ⊢
    simp only [Bool.or_eq_true, Bool.and_eq_true, decide_eq_true_eq] at h ⊢
    rintro (h3 | ⟨h3, h4⟩)
    · apply h
      by_cases hs : now.sec < dl.sec
      · exact Or.inl hs
      · right
        constructor <;> omega
    · apply h
      by_cases hs : now.sec < dl.sec
      · exact Or.inl hs
      · right
        constructor <;> omega

/-- Claim C1 fails where `UpdatedAt + ttl` is not representable. Updated ten
seconds before the last int64 second, with a ttl of 100 seconds, the record is
expired at the last second, which is before `UpdatedAt + ttl`: `Add` saturates.
And a record updated 299 seconds before the last second is expired, under a ttl
of five minutes, at `UpdatedAt + 5m - 1ns`. -/
theorem UserPermissions.Expired_saturated :
    nearMaxTime.Valid ∧ maxTime.Valid
    ∧ ({ sampleUser none with UpdatedAt := nearMaxTime } :
        UserPermissions sampleExternals).Expired (100 * 1000000000) maxTime = true
    ∧ ¬ (maxTime.wallInstant ≥ nearMaxTime.wallInstant + 100 * 1000000000)
    ∧ nearMaxTime.Add (100 * 1000000000) = maxTime
    ∧ beforeMaxTime.Valid
    ∧ ({ sampleUser none with UpdatedAt := beforeMaxTime } :
        UserPermissions sampleExternals).Expired (5 * Minute)
          (beforeMaxTime.Add (5 * Minute - 1)) = true := by
  decide

/-- Claim C1, amended. For every UserPermissions record, every instant now and
every ttl for which `UpdatedAt + ttl` is representable, `Expired(ttl, now)` is
true exactly when now is at or after `UpdatedAt + ttl`, on the monotonic clock
when both UpdatedAt and now carry a monotonic reading and on the wall clock
otherwise. With a ttl of five minutes it is true at `UpdatedAt + 5m`, and false
one nanosecond earlier when that time is representable too. -/
theorem UserPermissions.Expired_iff {X : Externals} (p : UserPermissions X)
    (ttl : Duration) (now : Time) (hU : p.UpdatedAt.Valid) (hn : now.Valid)
    (hr : p.UpdatedAt.Representable ttl) :
    (p.Expired ttl now = true ↔
      if p.UpdatedAt.hasMonotonic = true ∧ now.hasMonotonic = true then
        now.ext ≥ p.UpdatedAt.ext + ttl
      else now.wallInstant ≥ p.UpdatedAt.wallInstant + ttl)
    ∧ p.Expired (5 * Minute) (p.UpdatedAt.Add (5 * Minute)) = true
    ∧ (p.UpdatedAt.Representable (5 * Minute) → p.UpdatedAt.Representable (5 * Minute - 1) →
        p.Expired (5 * Minute) (p.UpdatedAt.Add (5 * Minute - 1)) = false) := by
  refine ⟨?_, ?_, ?_⟩
  · unfold UserPermissions.Expired
    exact Time.not_Before_Add_iff p.UpdatedAt now ttl hU hn hr
  · unfold UserPermissions.Expired Time.Before
    simp
  · intro h5 h4
    obtain ⟨hv, hm, hw, he⟩ := Time.Add_exact p.UpdatedAt (5 * Minute - 1) hU h4
    have hk := Time.not_Before_Add_iff p.UpdatedAt (p.UpdatedAt.Add (5 * Minute - 1))
      (5 * Minute) hU hv h5
    unfold UserPermissions.Expired
    rw [← Bool.not_eq_true, hk, hm, hw]
    by_cases h1 : p.UpdatedAt.hasMonotonic = true
    · rw [if_pos ⟨h1, h1⟩, he h1]
      omega
    · rw [if_neg (fun h => h1 h.1)]
      omega

/-- Claim C1, amended, at the sample record, updated at `T` without a monotonic
reading, and at a record updated with a monotonic reading: under a ttl of five
minutes both are expired at `UpdatedAt + 5m` and not one nanosecond earlier. -/
theorem UserPermissions.Expired_iff_witness :
    sampleTime.Valid ∧ sampleTime.Representable (5 * Minute)
    ∧ (sampleUser none).Expired (5 * Minute) (sampleTime.Add (5 * Minute)) = true
    ∧ (sampleUser none).Expired (5 * Minute) (sampleTime.Add (5 * Minute - 1)) = false
    ∧ sampleMonoTime.Valid ∧ sampleMonoTime.Representable (5 * Minute)
    ∧ ({ sampleUser none with UpdatedAt := sampleMonoTime } :
        UserPermissions sampleExternals).Expired (5 * Minute)
          (sampleMonoTime.Add (5 * Minute)) = true
    ∧ ({ sampleUser none with UpdatedAt := sampleMonoTime } :
        UserPermissions sampleExternals).Expired (5 * Minute)
          (sampleMonoTime.Add (5 * Minute - 1)) = false :=
  ⟨by decide, by decide,
   (UserPermissions.Expired_iff (sampleUser none) (5 * Minute) (sampleTime.Add (5 * Minute))
      (by decide) (by decide) (by decide)).2.1,
   (UserPermissions.Expired_iff (sampleUser none) (5 * Minute) (sampleTime.Add (5 * Minute))
      (by decide) (by decide) (by decide)).2.2 (by decide) (by decide),
   by decide, by decide, by decide, by decide⟩

/-- Claim C15 fails outside one clock and the representable range. Updated ten
seconds before the last int64 second, a record is expired at the last second
under a ttl of 100 seconds, whose deadline saturates, and fresh under the
shorter ttl of 10 seconds and 5 nanoseconds. And a record whose deadline carries
a monotonic reading is expired at a time `now` with a monotonic reading, and
fresh at a time without one that is later than `now` on the wall clock but
earlier than the deadline there. -/
theorem Expired_not_mono :
    nearMaxTime.Valid ∧ maxTime.Valid ∧ monoUpdated.Valid ∧ monoNow.Valid ∧ wallLater.Valid
    ∧ ({ sampleUser none with UpdatedAt := nearMaxTime } :
        UserPermissions sampleExternals).Expired (100 * 1000000000) maxTime = true
    ∧ (10000000005 : Int) ≤ 100 * 1000000000
    ∧ ({ sampleUser none with UpdatedAt := nearMaxTime } :
        UserPermissions sampleExternals).Expired 10000000005 maxTime = false
    ∧ ({ sampleRepoPermissions none with UpdatedAt := nearMaxTime } :
        RepoPermissions sampleExternals).Expired (100 * 1000000000) maxTime = true
    ∧ ({ sampleRepoPermissions none with UpdatedAt := nearMaxTime } :
        RepoPermissions sampleExternals).Expired 10000000005 maxTime = false
    ∧ ({ sampleUser none with UpdatedAt := monoUpdated } :
        UserPermissions sampleExternals).Expired (300 * 1000000000) monoNow = true
    ∧ wallLater.Before monoNow = false
    ∧ monoNow.wallInstant ≤ wallLater.wallInstant
    ∧ ({ sampleUser none with UpdatedAt := monoUpdated } :
        UserPermissions sampleExternals).Expired (300 * 1000000000) wallLater = false := by
  decide

/-- Claim C15, amended. `Expired` is monotone on one clock and within the
representable range, for `UserPermissions` and for `RepoPermissions`. A record
expired at `now` is expired at every `now2` of the same kind that is not earlier
than `now`, on the wall clock and, with monotonic readings, on the monotonic
clock. And when `UpdatedAt + ttl` and `UpdatedAt + ttl2` are representable, a
record expired under `ttl2` is expired under every shorter `ttl`. -/
theorem Expired_mono {X : Externals} (u : UserPermissions X) (r : RepoPermissions X)
    (ttl ttl2 : Duration) (now now2 : Time) (hu : u.UpdatedAt.Valid)
    (hrv : r.UpdatedAt.Valid) (hn : now.Valid) (hn2 : now2.Valid) :
    (u.Expired ttl now = true → now.NotAfter now2 → u.Expired ttl now2 = true)
    ∧ (u.UpdatedAt.Representable ttl → u.UpdatedAt.Representable ttl2 →
        u.Expired ttl2 now = true → ttl ≤ ttl2 → u.Expired ttl now = true)
    ∧ (r.Expired ttl now = true → now.NotAfter now2 → r.Expired ttl now2 = true)
    ∧ (r.UpdatedAt.Representable ttl → r.UpdatedAt.Representable ttl2 →
        r.Expired ttl2 now = true → ttl ≤ ttl2 → r.Expired ttl now = true) := by
  have key : ∀ t : Time, t.Valid → t.Representable ttl → t.Representable ttl2 →
      (!(now.Before (t.Add ttl2))) = true → ttl ≤ ttl2 →
      (!(now.Before (t.Add ttl))) = true := by
    intro t ht h1 h2 he hle
    have hle2 : @LE.le Int _ ttl ttl2 := hle
    rw [Time.not_Before_Add_iff t now ttl2 ht hn h2] at he
    rw [Time.not_Before_Add_iff t now ttl ht hn h1]
    split_ifs at he ⊢ <;> omega
  unfold UserPermissions.Expired RepoPermissions.Expired
  refine ⟨?_, ?_, ?_, ?_⟩
  · intro h hle
    exact Time.not_Before_mono _ now now2 (Time.Add_nsec_lt _ _ hu.1) hn hn2 h hle
  · exact key u.UpdatedAt hu
  · intro h hle
    exact Time.not_Before_mono _ now now2 (Time.Add_nsec_lt _ _ hrv.1) hn hn2 h hle
  · exact key r.UpdatedAt hrv

/-- Claim C15, amended, at the sample records, updated at `T`: expired at
`T + 5m` under a ttl of five minutes, they are expired at `T + 6m` and, at
`T + 5m`, under a ttl of four minutes. -/
theorem Expired_mono_witness :
    sampleTime.Valid ∧ (sampleTime.Add (5 * Minute)).Valid
    ∧ (sampleTime.Add (6 * Minute)).Valid
    ∧ (sampleTime.Add (5 * Minute)).NotAfter (sampleTime.Add (6 * Minute))
    ∧ (sampleUser none).Expired (5 * Minute) (sampleTime.Add (5 * Minute)) = true
    ∧ (sampleUser none).Expired (5 * Minute) (sampleTime.Add (6 * Minute)) = true
    ∧ (sampleUser none).Expired (4 * Minute) (sampleTime.Add (5 * Minute)) = true
    ∧ (sampleRepoPermissions none).Expired (5 * Minute) (sampleTime.Add (6 * Minute)) = true
    ∧ (sampleRepoPermissions none).Expired (4 * Minute) (sampleTime.Add (5 * Minute))
        = true :=
  ⟨by decide, by decide, by decide, by decide, by decide,
   (Expired_mono (sampleUser none) (sampleRepoPermissions none) (5 * Minute) (5 * Minute)
      (sampleTime.Add (5 * Minute)) (sampleTime.Add (6 * Minute)) (by decide) (by decide)
      (by decide) (by decide)).1 (by decide) (by decide),
   (Expired_mono (sampleUser none) (sampleRepoPermissions none) (4 * Minute) (5 * Minute)
      (sampleTime.Add (5 * Minute)) (sampleTime.Add (5 * Minute)) (by decide) (by decide)
      (by decide) (by decide)).2.1 (by decide) (by decide) (by decide) (by decide),
   (Expired_mono (sampleUser none) (sampleRepoPermissions none) (5 * Minute) (5 * Minute)
      (sampleTime.Add (5 * Minute)) (sampleTime.Add (6 * Minute)) (by decide) (by decide)
      (by decide) (by decide)).2.2.1 (by decide) (by decide),
   (Expired_mono (sampleUser none) (sampleRepoPermissions none) (4 * Minute) (5 * Minute)
      (sampleTime.Add (5 * Minute)) (sampleTime.Add (5 * Minute)) (by decide) (by decide)
      (by decide) (by decide)).2.2.2 (by decide) (by decide) (by decide) (by decide)⟩

/-! ## The resolver -/

/-- The loop appends, to what was built so far, the kept candidates in input
order: it is a filter followed by a map. -/
theorem UserPermissions.authorizedLoop_eq {X : Externals} (perm : X.Perms) (ids : Bitmap)
    (repos : List Repo) (perms : List (RepoPerms X)) :
    UserPermissions.authorizedLoop perm ids repos perms =
      perms ++ (repos.filter (fun r => decide (r.ID ≠ 0 ∧ uint32 r.ID ∈ ids.vals))).map
        (fun r => (⟨r, perm⟩ : RepoPerms X)) := by
  induction repos generalizing perms with
  | nil => simp [UserPermissions.authorizedLoop]
  | cons r rest ih =>
    unfold UserPermissions.authorizedLoop
    by_cases h : r.ID ≠ 0 ∧ uint32 r.ID ∈ ids.vals
    · have h2 : r.ID ≠ 0 ∧ ids.Contains (uint32 r.ID) = true := by
        simpa [Bitmap.Contains] using h
      rw [if_pos h2, ih, List.filter_cons_of_pos (by simpa using h)]
      simp
    · have h2 : ¬ (r.ID ≠ 0 ∧ ids.Contains (uint32 r.ID) = true) := by
        simpa [Bitmap.Contains] using h
      rw [if_neg h2, ih, List.filter_cons_of_neg (by simpa using h)]

/-- Past the guard, `AuthorizedRepos` is the filter of the candidates. -/
theorem UserPermissions.AuthorizedRepos_eq {X : Externals} (p : UserPermissions X)
    (ids : Bitmap) (repos : List Repo) (hT : p.Type_ = X.PermRepos)
    (hI : p.IDs = some ids) (hC : ids.GetCardinality ≠ 0) :
    p.AuthorizedRepos repos =
      (repos.filter (fun r => decide (r.ID ≠ 0 ∧ uint32 r.ID ∈ ids.vals))).map
        (fun r => (⟨r, p.Perm⟩ : RepoPerms X)) := by
  unfold UserPermissions.AuthorizedRepos
  rw [if_neg (by simpa using hT), hI]
  simp only
  rw [if_neg hC, UserPermissions.authorizedLoop_eq]
  simp

/-- Every entry of the result is a candidate that passed the loop's test, paired
with the record's permission, whatever the guard decided. -/
theorem UserPermissions.mem_AuthorizedRepos {X : Externals} (p : UserPermissions X)
    (repos : List Repo) (rp : RepoPerms X) (h : rp ∈ p.AuthorizedRepos repos) :
    rp.Repo ∈ repos ∧ rp.Repo.ID ≠ 0 ∧ rp.Perms = p.Perm
      ∧ ∃ ids, p.IDs = some ids ∧ uint32 rp.Repo.ID ∈ ids.vals := by
  unfold UserPermissions.AuthorizedRepos at h
  split at h
  · simp at h
  · split at h
    · simp at h
    · rename_i ids hI
      split at h
      · simp at h
      · rw [UserPermissions.authorizedLoop_eq] at h
        simp only [List.nil_append, List.mem_map, List.mem_filter, decide_eq_true_eq] at h
        obtain ⟨r, ⟨hr, h0, hm⟩, rfl⟩ := h
        exact ⟨hr, h0, rfl, ids, hI, hm⟩

/-- On the int32 range, `uint32(x)` is `x` for a non-negative `x` and
`x + 2^32` for a negative one. -/
theorem uint32_int32 (x : Int) (h1 : -2147483648 ≤ x) (h2 : x < 2147483648) :
    uint32 x = if 0 ≤ x then x.toNat else (x + 4294967296).toNat := by
  unfold uint32
  split_ifs <;> omega

/-- Claim C2 fails as worded. With the bitmap `{4294967295}` and candidates with
IDs -1 and 2, the result is the candidate -1, although -1 is not a member of the
bitmap: the filter by "ID non-zero and a member of the bitmap" is empty. -/
theorem UserPermissions.AuthorizedRepos_not_member_filter :
    (sampleUser (some bitmapMax)).Type_ = sampleExternals.PermRepos
    ∧ bitmapMax.GetCardinality ≠ 0
    ∧ (sampleUser (some bitmapMax)).AuthorizedRepos [sampleRepo (-1), sampleRepo 2] =
        [⟨sampleRepo (-1), SamplePerms.Read⟩]
    ∧ bitmapMax.hasID (sampleRepo (-1)).ID = false
    ∧ [sampleRepo (-1), sampleRepo 2].filter
        (fun r => decide (r.ID ≠ 0) && bitmapMax.hasID r.ID) = [] := by
  refine ⟨rfl, by decide, rfl, by decide, by decide⟩

/-- Claim C2, amended. For a repository-kind record whose bitmap is present and
non-empty and candidates with int32 IDs, `AuthorizedRepos` is the
order-preserving filter of the candidates that keeps exactly those whose ID is
non-zero and for which the ID, or the ID plus `2^32` when the ID is negative, is
a member of the bitmap, each paired with the record's permission. When every
member of the bitmap is below `2^31`, it keeps exactly the candidates whose ID
is non-zero and a member of the bitmap. -/
theorem UserPermissions.AuthorizedRepos_filter {X : Externals} (p : UserPermissions X)
    (ids : Bitmap) (repos : List Repo) (hT : p.Type_ = X.PermRepos)
    (hI : p.IDs = some ids) (hC : ids.GetCardinality ≠ 0)
    (h32 : ∀ r ∈ repos, -2147483648 ≤ r.ID ∧ r.ID < 2147483648) :
    p.AuthorizedRepos repos =
      (repos.filter (fun r => decide (r.ID ≠ 0)
          && (ids.hasID r.ID || (decide (r.ID < 0) && ids.hasID (r.ID + 4294967296))))).map
        (fun r => (⟨r, p.Perm⟩ : RepoPerms X))
    ∧ ((∀ v ∈ ids.vals, v < 2147483648) →
        p.AuthorizedRepos repos =
          (repos.filter (fun r => decide (r.ID ≠ 0) && ids.hasID r.ID)).map
            (fun r => (⟨r, p.Perm⟩ : RepoPerms X))) := by
  rw [UserPermissions.AuthorizedRepos_eq p ids repos hT hI hC]
  constructor
  · congr 1
    apply List.filter_congr
    intro r hr
    obtain ⟨h1, h2⟩ := h32 r hr
    rw [Bool.eq_iff_iff]
    simp only [Bitmap.hasID, uint32_int32 r.ID h1 h2, Bool.and_eq_true, Bool.or_eq_true,
      decide_eq_true_eq]
    by_cases h0 : 0 ≤ r.ID
    · rw [if_pos h0]
      constructor
      · rintro ⟨ha, hb⟩
        exact ⟨ha, Or.inl ⟨h0, hb⟩⟩
      · rintro ⟨ha, hb | ⟨hc, _⟩⟩
        · exact ⟨ha, hb.2⟩
        · omega
    · rw [if_neg h0]
      constructor
      · rintro ⟨ha, hb⟩
        exact ⟨ha, Or.inr ⟨by omega, by omega, hb⟩⟩
      · rintro ⟨ha, hb | ⟨_, _, hc⟩⟩
        · omega
        · exact ⟨ha, hc⟩
  · intro hinv
    congr 1
    apply List.filter_congr
    intro r hr
    obtain ⟨h1, h2⟩ := h32 r hr
    rw [Bool.eq_iff_iff]
    simp only [Bitmap.hasID, uint32_int32 r.ID h1 h2, Bool.and_eq_true, decide_eq_true_eq]
    by_cases h0 : 0 ≤ r.ID
    · rw [if_pos h0]
      constructor
      · rintro ⟨ha, hb⟩
        exact ⟨ha, h0, hb⟩
      · rintro ⟨ha, _, hb⟩
        exact ⟨ha, hb⟩
    · rw [if_neg h0]
      constructor
      · rintro ⟨_, hb⟩
        have := hinv _ hb
        omega
      · rintro ⟨_, hb, _⟩
        omega

/-- The example of claim C2: with the bitmap `{2, 5}`, whose members are below
`2^31`, permission Read and candidates with IDs 0, 2, 3, 5 the result is
`[(2, Read), (5, Read)]`. -/
theorem UserPermissions.AuthorizedRepos_filter_witness :
    (sampleUser (some bitmap25)).Type_ = sampleExternals.PermRepos
    ∧ bitmap25.GetCardinality ≠ 0
    ∧ (∀ v ∈ bitmap25.vals, v < 2147483648)
    ∧ (sampleUser (some bitmap25)).AuthorizedRepos
        [sampleRepo 0, sampleRepo 2, sampleRepo 3, sampleRepo 5] =
      [⟨sampleRepo 2, SamplePerms.Read⟩, ⟨sampleRepo 5, SamplePerms.Read⟩] := by
  refine ⟨rfl, by decide, by decide, ?_⟩
  rw [(UserPermissions.AuthorizedRepos_filter (sampleUser (some bitmap25)) bitmap25
    [sampleRepo 0, sampleRepo 2, sampleRepo 3, sampleRepo 5] rfl rfl (by decide)
    (by decide)).2 (by decide)]
  rfl

/-- Claim C3. A record whose Type is not the repository kind authorizes no
candidate, whatever its bitmap contains. -/
theorem UserPermissions.AuthorizedRepos_wrong_type {X : Externals} (p : UserPermissions X)
    (repos : List Repo) (hT : p.Type_ ≠ X.PermRepos) :
    p.AuthorizedRepos repos = [] := by
  unfold UserPermissions.AuthorizedRepos
  rw [if_pos hT]

/-- Claim C3 at a record of another kind whose bitmap `{2, 5}` contains the ID of
every candidate. -/
theorem UserPermissions.AuthorizedRepos_wrong_type_witness :
    ({ sampleUser (some bitmap25) with Type_ := "changesets" } :
        UserPermissions sampleExternals).Type_ ≠ sampleExternals.PermRepos
    ∧ ({ sampleUser (some bitmap25) with Type_ := "changesets" } :
        UserPermissions sampleExternals).AuthorizedRepos [sampleRepo 2, sampleRepo 5] = [] :=
  ⟨by decide,
   UserPermissions.AuthorizedRepos_wrong_type _ [sampleRepo 2, sampleRepo 5] (by decide)⟩

/-- Claim C4. A record whose bitmap is absent (nil), or present with cardinality
0, authorizes no candidate. -/
theorem UserPermissions.AuthorizedRepos_no_ids {X : Externals} (p : UserPermissions X)
    (repos : List Repo)
    (h : p.IDs = none ∨ ∃ ids, p.IDs = some ids ∧ ids.GetCardinality = 0) :
    p.AuthorizedRepos repos = [] := by
  unfold UserPermissions.AuthorizedRepos
  split
  · rfl
  · rcases h with h | ⟨ids, hI, hC⟩
    · rw [h]
    · rw [hI]
      simp only
      rw [if_pos hC]

/-- Claim C4 at a repository-kind record with a nil bitmap and at one with an
empty bitmap. -/
theorem UserPermissions.AuthorizedRepos_no_ids_witness :
    (sampleUser none).AuthorizedRepos [sampleRepo 2, sampleRepo 5] = []
    ∧ Bitmap.New.GetCardinality = 0
    ∧ (sampleUser (some Bitmap.New)).AuthorizedRepos [sampleRepo 2, sampleRepo 5] = [] :=
  ⟨UserPermissions.AuthorizedRepos_no_ids (sampleUser none) _ (Or.inl rfl),
   rfl,
   UserPermissions.AuthorizedRepos_no_ids (sampleUser (some Bitmap.New)) _
     (Or.inr ⟨Bitmap.New, rfl, rfl⟩)⟩

/-- Claim C5. No entry of the result of `AuthorizedRepos` is a candidate with
ID 0, for every record and every candidate list. -/
theorem UserPermissions.AuthorizedRepos_no_zero {X : Externals} (p : UserPermissions X)
    (repos : List Repo) (rp : RepoPerms X) (h : rp ∈ p.AuthorizedRepos repos) :
    rp.Repo.ID ≠ 0 :=
  (UserPermissions.mem_AuthorizedRepos p repos rp h).2.1

/-- Claim C5 at a record whose bitmap `{0, 2}` contains the value 0: of the
candidates with IDs 0 and 2 only the second is in the result. -/
theorem UserPermissions.AuthorizedRepos_no_zero_witness :
    (sampleUser (some ⟨{0, 2}, by decide⟩)).AuthorizedRepos [sampleRepo 0, sampleRepo 2] =
      [⟨sampleRepo 2, SamplePerms.Read⟩]
    ∧ (sampleRepo 2).ID ≠ 0 :=
  ⟨rfl,
   UserPermissions.AuthorizedRepos_no_zero (sampleUser (some ⟨{0, 2}, by decide⟩))
     [sampleRepo 0, sampleRepo 2] ⟨sampleRepo 2, SamplePerms.Read⟩
     (by
       have e : (sampleUser (some ⟨{0, 2}, by decide⟩)).AuthorizedRepos
           [sampleRepo 0, sampleRepo 2] = [⟨sampleRepo 2, SamplePerms.Read⟩] := rfl
       rw [e]
       exact List.mem_singleton.2 rfl)⟩

/-- Claim C6. No deduplication: for a repository-kind record with a present,
non-empty bitmap and every non-zero ID `x` in the bitmap, the result has as many
entries whose repository has ID `x` as there are candidates with ID `x`. -/
theorem UserPermissions.AuthorizedRepos_count {X : Externals} (p : UserPermissions X)
    (ids : Bitmap) (repos : List Repo) (x : Nat) (hT : p.Type_ = X.PermRepos)
    (hI : p.IDs = some ids) (hC : ids.GetCardinality ≠ 0) (hx : x ∈ ids.vals)
    (hx0 : x ≠ 0) :
    (p.AuthorizedRepos repos).countP (fun rp => decide (rp.Repo.ID = (x : Int))) =
      repos.countP (fun r => decide (r.ID = (x : Int))) := by
  have hb := ids.bound x hx
  have hu : uint32 (x : Int) = x := by
    unfold uint32
    omega
  rw [UserPermissions.AuthorizedRepos_eq p ids repos hT hI hC, List.countP_map,
    List.countP_filter]
  apply List.countP_congr
  intro r _
  simp only [Function.comp, Bool.and_eq_true, decide_eq_true_eq]
  constructor
  · rintro ⟨h, _⟩
    exact h
  · intro h
    refine ⟨h, ?_, ?_⟩
    · rw [h]
      exact_mod_cast hx0
    · rw [h, hu]
      exact hx

/-- The example of claim C6: with the bitmap `{2}` and two candidates with ID 2
the result has two entries, both `(2, Read)`. -/
theorem UserPermissions.AuthorizedRepos_count_witness :
    (sampleUser (some ⟨{2}, by decide⟩)).AuthorizedRepos [sampleRepo 2, sampleRepo 2] =
      [⟨sampleRepo 2, SamplePerms.Read⟩, ⟨sampleRepo 2, SamplePerms.Read⟩]
    ∧ ((sampleUser (some ⟨{2}, by decide⟩)).AuthorizedRepos
        [sampleRepo 2, sampleRepo 2]).countP (fun rp => decide (rp.Repo.ID = ((2 : Nat) : Int)))
      = [sampleRepo 2, sampleRepo 2].countP (fun r => decide (r.ID = ((2 : Nat) : Int))) :=
  ⟨rfl,
   UserPermissions.AuthorizedRepos_count (sampleUser (some ⟨{2}, by decide⟩)) ⟨{2}, by decide⟩
     [sampleRepo 2, sampleRepo 2] 2 rfl rfl (by decide) (by decide) (by decide)⟩

/-! ## The diagnostics projection -/

/-- Claim C7. For each of the three record kinds: when the bitmap is nil,
`TracingFields` has no Count field and no UpdatedAt field; when the bitmap is
present, even if empty, it has both, the Count field carrying the cardinality of
the bitmap. -/
theorem TracingFields_bitmap_fields {X : Externals} (u : UserPermissions X)
    (r : RepoPermissions X) (q : UserPendingPermissions X) :
    (u.IDs = none → ∀ f ∈ u.TracingFields,
        f.key ≠ "UserPermissions.IDs.Count" ∧ f.key ≠ "UserPermissions.UpdatedAt")
    ∧ (∀ ids, u.IDs = some ids →
        Field.uint64 "UserPermissions.IDs.Count" ids.GetCardinality ∈ u.TracingFields
        ∧ Field.string "UserPermissions.UpdatedAt" (X.timeString u.UpdatedAt)
            ∈ u.TracingFields)
    ∧ (r.UserIDs = none → ∀ f ∈ r.TracingFields,
        f.key ≠ "RepoPermissions.UserIDs.Count" ∧ f.key ≠ "RepoPermissions.UpdatedAt")
    ∧ (∀ ids, r.UserIDs = some ids →
        Field.uint64 "RepoPermissions.UserIDs.Count" ids.GetCardinality ∈ r.TracingFields
        ∧ Field.string "RepoPermissions.UpdatedAt" (X.timeString r.UpdatedAt)
            ∈ r.TracingFields)
    ∧ (q.IDs = none → ∀ f ∈ q.TracingFields,
        f.key ≠ "UserPendingPermissions.IDs.Count"
        ∧ f.key ≠ "UserPendingPermissions.UpdatedAt")
    ∧ (∀ ids, q.IDs = some ids →
        Field.uint64 "UserPendingPermissions.IDs.Count" ids.GetCardinality
            ∈ q.TracingFields
        ∧ Field.string "UserPendingPermissions.UpdatedAt" (X.timeString q.UpdatedAt)
            ∈ q.TracingFields) := by
  refine ⟨?_, ?_, ?_, ?_, ?_, ?_⟩
  · intro h f hf
    simp only [UserPermissions.TracingFields, h, List.mem_cons, List.mem_singleton,
      List.not_mem_nil, or_false] at hf
    rcases hf with rfl | rfl | rfl | rfl <;> simp [Field.key]
  · intro ids h
    simp [UserPermissions.TracingFields, h]
  · intro h f hf
    simp only [RepoPermissions.TracingFields, h, List.mem_cons, List.mem_singleton,
      List.not_mem_nil, or_false] at hf
    rcases hf with rfl | rfl | rfl <;> simp [Field.key]
  · intro ids h
    simp [RepoPermissions.TracingFields, h]
  · intro h f hf
    simp only [UserPendingPermissions.TracingFields, h, List.mem_cons, List.mem_singleton,
      List.not_mem_nil, or_false] at hf
    rcases hf with rfl | rfl | rfl | rfl <;> simp [Field.key]
  · intro ids h
    simp [UserPendingPermissions.TracingFields, h]

/-- Claim C7 evaluated: the keys that the three sample records emit with a nil
bitmap and with a present, empty bitmap, and the Count field of the latter. -/
theorem TracingFields_bitmap_fields_witness :
    (sampleUser none).TracingFields.map Field.key =
      ["UserPermissions.UserID", "UserPermissions.Perm", "UserPermissions.Type",
       "UserPermissions.Provider"]
    ∧ (sampleRepoPermissions none).TracingFields.map Field.key =
      ["RepoPermissions.RepoID", "RepoPermissions.Perm", "RepoPermissions.Provider"]
    ∧ (samplePending none).TracingFields.map Field.key =
      ["UserPendingPermissions.ID", "UserPendingPermissions.BindID",
       "UserPendingPermissions.Perm", "UserPendingPermissions.Type"]
    ∧ Field.uint64 "UserPermissions.IDs.Count" 0 ∈ (sampleUser (some Bitmap.New)).TracingFields
    ∧ Field.uint64 "RepoPermissions.UserIDs.Count" 0
        ∈ (sampleRepoPermissions (some Bitmap.New)).TracingFields
    ∧ Field.uint64 "UserPendingPermissions.IDs.Count" 0
        ∈ (samplePending (some Bitmap.New)).TracingFields :=
  ⟨rfl, rfl, rfl,
   ((TracingFields_bitmap_fields (sampleUser (some Bitmap.New))
      (sampleRepoPermissions (some Bitmap.New)) (samplePending (some Bitmap.New))).2.1
      Bitmap.New rfl).1,
   ((TracingFields_bitmap_fields (sampleUser (some Bitmap.New))
      (sampleRepoPermissions (some Bitmap.New)) (samplePending (some Bitmap.New))).2.2.2.1
      Bitmap.New rfl).1,
   ((TracingFields_bitmap_fields (sampleUser (some Bitmap.New))
      (sampleRepoPermissions (some Bitmap.New)) (samplePending (some Bitmap.New))).2.2.2.2.2
      Bitmap.New rfl).1⟩

/-- Claim C8 fails for `RepoPermissions`: the fields of the sample repository
record, without and with a bitmap, are its RepoID, Perm and Provider (then Count
and UpdatedAt); none of them is a Kind, and no key is "RepoPermissions.Type". -/
theorem TracingFields_repo_no_kind :
    (sampleRepoPermissions none).TracingFields =
      [Field.int32 "RepoPermissions.RepoID" 3,
       Field.string "RepoPermissions.Perm" (sampleExternals.stringOfPerms SamplePerms.Read),
       Field.string "RepoPermissions.Provider"
         (sampleExternals.stringOfProviderType "bitbucketServer")]
    ∧ (sampleRepoPermissions (some bitmap25)).TracingFields =
      [Field.int32 "RepoPermissions.RepoID" 3,
       Field.string "RepoPermissions.Perm" (sampleExternals.stringOfPerms SamplePerms.Read),
       Field.string "RepoPermissions.Provider"
         (sampleExternals.stringOfProviderType "bitbucketServer"),
       Field.uint64 "RepoPermissions.UserIDs.Count" 2,
       Field.string "RepoPermissions.UpdatedAt" (sampleExternals.timeString sampleTime)]
    ∧ (sampleRepoPermissions none).TracingFields.map Field.key =
      ["RepoPermissions.RepoID", "RepoPermissions.Perm", "RepoPermissions.Provider"]
    ∧ (sampleRepoPermissions (some bitmap25)).TracingFields.map Field.key =
      ["RepoPermissions.RepoID", "RepoPermissions.Perm", "RepoPermissions.Provider",
       "RepoPermissions.UserIDs.Count", "RepoPermissions.UpdatedAt"]
    ∧ "RepoPermissions.Type" ∉ (sampleRepoPermissions none).TracingFields.map Field.key
    ∧ "RepoPermissions.Type" ∉
        (sampleRepoPermissions (some bitmap25)).TracingFields.map Field.key := by
  refine ⟨rfl, rfl, rfl, rfl, ?_, ?_⟩ <;> decide

/-- Claim C8, amended. Whether or not the bitmap is present, `TracingFields`
starts with the identity fields of the record: UserID, Perm, Type and Provider
for `UserPermissions`; RepoID, Perm and Provider for `RepoPermissions`; ID,
BindID, Perm and Type for `UserPendingPermissions`, which has no Provider. Perm,
Type and Provider are emitted as strings. `RepoPermissions`, which has no Type,
emits no Kind: every field it emits is keyed RepoID, Perm, Provider,
UserIDs.Count or UpdatedAt, and what follows the identity fields is nothing for
a nil bitmap and the Count and UpdatedAt fields for a present one. -/
theorem TracingFields_identity_fields {X : Externals} (u : UserPermissions X)
    (r : RepoPermissions X) (q : UserPendingPermissions X) :
    (∃ rest, u.TracingFields =
      [Field.int32 "UserPermissions.UserID" u.UserID,
       Field.string "UserPermissions.Perm" (X.stringOfPerms u.Perm),
       Field.string "UserPermissions.Type" (X.stringOfPermType u.Type_),
       Field.string "UserPermissions.Provider" (X.stringOfProviderType u.Provider)] ++ rest)
    ∧ (r.TracingFields =
      [Field.int32 "RepoPermissions.RepoID" r.RepoID,
       Field.string "RepoPermissions.Perm" (X.stringOfPerms r.Perm),
       Field.string "RepoPermissions.Provider" (X.stringOfProviderType r.Provider)]
      ++ (match r.UserIDs with
          | none => []
          | some ids =>
            [Field.uint64 "RepoPermissions.UserIDs.Count" ids.GetCardinality,
             Field.string "RepoPermissions.UpdatedAt" (X.timeString r.UpdatedAt)]))
    ∧ (∀ f ∈ r.TracingFields,
        f.key = "RepoPermissions.RepoID" ∨ f.key = "RepoPermissions.Perm"
        ∨ f.key = "RepoPermissions.Provider" ∨ f.key = "RepoPermissions.UserIDs.Count"
        ∨ f.key = "RepoPermissions.UpdatedAt")
    ∧ (∀ f ∈ r.TracingFields, f.key ≠ "RepoPermissions.Type")
    ∧ (∃ rest, q.TracingFields =
      [Field.int32 "UserPendingPermissions.ID" q.ID,
       Field.string "UserPendingPermissions.BindID" q.BindID,
       Field.string "UserPendingPermissions.Perm" (X.stringOfPerms q.Perm),
       Field.string "UserPendingPermissions.Type" (X.stringOfPermType q.Type_)] ++ rest) := by
  have hkeys : ∀ f ∈ r.TracingFields,
      f.key = "RepoPermissions.RepoID" ∨ f.key = "RepoPermissions.Perm"
      ∨ f.key = "RepoPermissions.Provider" ∨ f.key = "RepoPermissions.UserIDs.Count"
      ∨ f.key = "RepoPermissions.UpdatedAt" := by
    intro f hf
    unfold RepoPermissions.TracingFields at hf
    cases hI : r.UserIDs with
    | none =>
      simp only [hI, List.mem_cons, List.mem_singleton, List.not_mem_nil, or_false] at hf
      rcases hf with rfl | rfl | rfl <;> simp [Field.key]
    | some ids =>
      simp only [hI, List.cons_append, List.nil_append, List.mem_cons, List.mem_singleton,
        List.not_mem_nil, or_false] at hf
      rcases hf with rfl | rfl | rfl | rfl | rfl <;> simp [Field.key]
  refine ⟨?_, ?_, hkeys, ?_, ?_⟩
  · unfold UserPermissions.TracingFields
    cases u.IDs with
    | none => exact ⟨[], by simp⟩
    | some ids => exact ⟨_, rfl⟩
  · unfold RepoPermissions.TracingFields
    cases r.UserIDs with
    | none => simp
    | some ids => rfl
  · intro f hf he
    have hk := hkeys f hf
    rw [he] at hk
    revert hk
    decide
  · unfold UserPendingPermissions.TracingFields
    cases q.IDs with
    | none => exact ⟨[], by simp⟩
    | some ids => exact ⟨_, rfl⟩

/-! ## Nil bitmap and empty bitmap -/

/-- Claim C10. Two `UserPermissions` records that differ only in IDs, nil in one
and a present bitmap of cardinality 0 in the other, give the same result from
`AuthorizedRepos` for every candidate list, and different `TracingFields`. -/
theorem UserPermissions.nil_vs_empty {X : Externals} (p : UserPermissions X) (ids : Bitmap)
    (repos : List Repo) (h : ids.GetCardinality = 0) :
    ({ p with IDs := none } : UserPermissions X).AuthorizedRepos repos
      = ({ p with IDs := some ids } : UserPermissions X).AuthorizedRepos repos
    ∧ ({ p with IDs := none } : UserPermissions X).TracingFields
      ≠ ({ p with IDs := some ids } : UserPermissions X).TracingFields := by
  constructor
  · unfold UserPermissions.AuthorizedRepos
    simp [h]
  · intro e
    have e2 := congrArg List.length e
    simp [UserPermissions.TracingFields] at e2

/-- Claim C10 at the sample record with a nil bitmap and with the empty bitmap:
no candidate is authorized by either, and the second has two more fields. -/
theorem UserPermissions.nil_vs_empty_witness :
    Bitmap.New.GetCardinality = 0
    ∧ (sampleUser none).AuthorizedRepos [sampleRepo 2, sampleRepo 5] = []
    ∧ (sampleUser (some Bitmap.New)).AuthorizedRepos [sampleRepo 2, sampleRepo 5] = []
    ∧ (sampleUser none).TracingFields.length = 4
    ∧ (sampleUser (some Bitmap.New)).TracingFields.length = 6
    ∧ (sampleUser none).TracingFields ≠ (sampleUser (some Bitmap.New)).TracingFields :=
  ⟨rfl, rfl, rfl, rfl, rfl,
   (UserPermissions.nil_vs_empty (sampleUser none) Bitmap.New [sampleRepo 2, sampleRepo 5]
      rfl).2⟩

/-! ## The resolver: negative IDs, monotonicity, concatenation -/

/-- For every record, `AuthorizedRepos` is the filter of the candidates by
"ID non-zero and in the authorized set", a nil bitmap counting as empty, unless
the record is of another kind, when it is empty. -/
theorem UserPermissions.AuthorizedRepos_general {X : Externals} (p : UserPermissions X)
    (repos : List Repo) :
    p.AuthorizedRepos repos =
      if p.Type_ ≠ X.PermRepos then []
      else (repos.filter (fun r => decide (r.ID ≠ 0 ∧ uint32 r.ID ∈ idsOrEmpty p.IDs))).map
        (fun r => (⟨r, p.Perm⟩ : RepoPerms X)) := by
  by_cases hT : p.Type_ ≠ X.PermRepos
  · rw [if_pos hT]
    unfold UserPermissions.AuthorizedRepos
    rw [if_pos hT]
  · rw [if_neg hT]
    cases hI : p.IDs with
    | none =>
      unfold UserPermissions.AuthorizedRepos
      rw [if_neg hT, hI]
      simp [idsOrEmpty]
    | some ids =>
      by_cases hC : ids.GetCardinality = 0
      · have he : ids.vals = ∅ := Finset.card_eq_zero.1 hC
        unfold UserPermissions.AuthorizedRepos
        rw [if_neg hT, hI]
        simp [hC, idsOrEmpty, he]
      · rw [UserPermissions.AuthorizedRepos_eq p ids repos (by simpa using hT) hI hC]
        rfl

/-- Claim C13. `AuthorizedRepos` is monotone in the authorized set: for two
records with the same Type and Perm whose authorized sets satisfy
`IDs1 ⊆ IDs2`, a nil bitmap counting as empty, the result for the first is an
order-preserving sublist of the result for the second, for every candidate
list. -/
theorem UserPermissions.AuthorizedRepos_mono {X : Externals} (p1 p2 : UserPermissions X)
    (repos : List Repo) (hT : p1.Type_ = p2.Type_) (hP : p1.Perm = p2.Perm)
    (hsub : idsOrEmpty p1.IDs ⊆ idsOrEmpty p2.IDs) :
    List.Sublist (p1.AuthorizedRepos repos) (p2.AuthorizedRepos repos) := by
  rw [UserPermissions.AuthorizedRepos_general, UserPermissions.AuthorizedRepos_general, hT, hP]
  split
  · exact List.Sublist.refl _
  · apply List.Sublist.map
    apply List.monotone_filter_right
    intro r hr
    simp only [decide_eq_true_eq] at hr ⊢
    exact ⟨hr.1, hsub hr.2⟩

/-- Claim C13 at the bitmaps `{2} ⊆ {2, 5}` and at a nil bitmap against `{2, 5}`,
with candidates 2, 3, 5: the results are `[2]`, `[]` and `[2, 5]`. -/
theorem UserPermissions.AuthorizedRepos_mono_witness :
    (sampleUser (some ⟨{2}, by decide⟩)).AuthorizedRepos
        [sampleRepo 2, sampleRepo 3, sampleRepo 5] = [⟨sampleRepo 2, SamplePerms.Read⟩]
    ∧ (sampleUser (some bitmap25)).AuthorizedRepos
        [sampleRepo 2, sampleRepo 3, sampleRepo 5] =
        [⟨sampleRepo 2, SamplePerms.Read⟩, ⟨sampleRepo 5, SamplePerms.Read⟩]
    ∧ List.Sublist
        ((sampleUser (some ⟨{2}, by decide⟩)).AuthorizedRepos
          [sampleRepo 2, sampleRepo 3, sampleRepo 5])
        ((sampleUser (some bitmap25)).AuthorizedRepos
          [sampleRepo 2, sampleRepo 3, sampleRepo 5])
    ∧ List.Sublist
        ((sampleUser none).AuthorizedRepos [sampleRepo 2, sampleRepo 3, sampleRepo 5])
        ((sampleUser (some bitmap25)).AuthorizedRepos
          [sampleRepo 2, sampleRepo 3, sampleRepo 5]) :=
  ⟨rfl, rfl,
   UserPermissions.AuthorizedRepos_mono (sampleUser (some ⟨{2}, by decide⟩))
     (sampleUser (some bitmap25)) _ rfl rfl (by decide),
   UserPermissions.AuthorizedRepos_mono (sampleUser none) (sampleUser (some bitmap25)) _
     rfl rfl (by decide)⟩

/-- Claim C14. `AuthorizedRepos` distributes over the concatenation of candidate
lists, for every record, also when the guard returns the empty result. -/
theorem UserPermissions.AuthorizedRepos_append {X : Externals} (p : UserPermissions X)
    (a b : List Repo) :
    p.AuthorizedRepos (a ++ b) = p.AuthorizedRepos a ++ p.AuthorizedRepos b := by
  rw [UserPermissions.AuthorizedRepos_general, UserPermissions.AuthorizedRepos_general,
    UserPermissions.AuthorizedRepos_general]
  split
  · rfl
  · rw [List.filter_append, List.map_append]

end Authz

namespace Backend

/-! ## RegisterBeta and ensureUIDPopulated -/

/-- Claim C16. For every request whose `Email` field is not empty, `RegisterBeta`
returns an error and no response, having made no call to the user service, the
accounts service or the mailing-list client; the world and the request are as
before the call. -/
theorem RegisterBeta_email_unsupported (D : Deps) (ctx : D.Context) (opt : BetaRegistration)
    (w : D.World) (h : opt.Email ≠ "") :
    (RegisterBeta D ctx opt w).result =
      Outcome.returned (none, some (D.Errorf
        "BetaRegistration.Email field is currently unsupported (leave it blank)"))
    ∧ (RegisterBeta D ctx opt w).calls = []
    ∧ (RegisterBeta D ctx opt w).world = w
    ∧ (RegisterBeta D ctx opt w).opt = opt := by
  unfold RegisterBeta
  rw [if_pos h]
  exact ⟨rfl, rfl, rfl, rfl⟩

/-- Claim C16 at a registration of Alice with the `Email` field set: an error, no
call, the world untouched. With the field left blank the same registration makes
five calls and is answered with the primary address. -/
theorem RegisterBeta_email_unsupported_witness :
    (sampleRegistration "alice@example.com").Email ≠ ""
    ∧ (RegisterBeta sampleDeps ⟨"alice", 1⟩ (sampleRegistration "alice@example.com") 0).result
        = Outcome.returned (none,
            some "BetaRegistration.Email field is currently unsupported (leave it blank)")
    ∧ (RegisterBeta sampleDeps ⟨"alice", 1⟩ (sampleRegistration "alice@example.com") 0).calls
        = []
    ∧ (RegisterBeta sampleDeps ⟨"alice", 1⟩ (sampleRegistration "alice@example.com") 0).world
        = 0
    ∧ (RegisterBeta sampleDeps ⟨"alice", 1⟩ (sampleRegistration "") 0).result
        = Outcome.returned (some ⟨"alice@example.com"⟩, none)
    ∧ (RegisterBeta sampleDeps ⟨"alice", 1⟩ (sampleRegistration "") 0).calls.length = 5
    ∧ (RegisterBeta sampleDeps ⟨"alice", 1⟩ (sampleRegistration "") 0).world = 4 :=
  ⟨by decide,
   (RegisterBeta_email_unsupported sampleDeps ⟨"alice", 1⟩
      (sampleRegistration "alice@example.com") 0 (by decide)).1,
   rfl, rfl, rfl, rfl, rfl⟩

/-- Claim C18. When `userSpec.UID` is not zero, `ensureUIDPopulated` returns nil,
looks up no user and leaves `userSpec` and the world as they were. When it is
zero, `ensureUIDPopulated` is `resolveUserSpec`, which makes one lookup: if the
lookup gives a user and no error, nil is returned and `userSpec` is the spec of
that user; if it gives an error, the error is returned and `userSpec` is
unchanged. -/
theorem ensureUIDPopulated_spec (D : Deps) (ctx : D.Context) (userSpec : D.UserSpec)
    (w : D.World) :
    (D.UID userSpec ≠ 0 →
      ensureUIDPopulated D ctx userSpec w = ⟨Outcome.returned none, userSpec, w, []⟩)
    ∧ (D.UID userSpec = 0 →
      ensureUIDPopulated D ctx userSpec w = resolveUserSpec D ctx userSpec w)
    ∧ (∀ user w1, D.storeUsersGet ctx userSpec w = ((some user, none), w1) →
      resolveUserSpec D ctx userSpec w =
        ⟨Outcome.returned none, D.Spec user, w1, [Call.storeUsersGet userSpec]⟩)
    ∧ (∀ user err w1, D.storeUsersGet ctx userSpec w = ((user, some err), w1) →
      resolveUserSpec D ctx userSpec w =
        ⟨Outcome.returned (some err), userSpec, w1, [Call.storeUsersGet userSpec]⟩) := by
  refine ⟨?_, ?_, ?_, ?_⟩
  · intro h
    unfold ensureUIDPopulated
    rw [if_pos h]
  · intro h
    unfold ensureUIDPopulated
    rw [if_neg (by simpa using h)]
  · intro user w1 h
    unfold resolveUserSpec Get
    rw [h]
  · intro user err w1 h
    unfold resolveUserSpec Get
    rw [h]
    cases user <;> rfl

/-- Claim C18 evaluated: a spec with UID 1 is left alone without a lookup; the
spec of login "alice" with UID 0 is resolved to UID 1 by one lookup; the spec of
login "bob" with UID 0 gets the error of the lookup and stays as it was. -/
theorem ensureUIDPopulated_spec_witness :
    ensureUIDPopulated sampleDeps ⟨"alice", 1⟩ ⟨"alice", 1⟩ 0
      = ⟨Outcome.returned none, ⟨"alice", 1⟩, 0, []⟩
    ∧ ensureUIDPopulated sampleDeps ⟨"alice", 1⟩ ⟨"alice", 0⟩ 0
      = ⟨Outcome.returned none, ⟨"alice", 1⟩, 1, [Call.storeUsersGet ⟨"alice", 0⟩]⟩
    ∧ ensureUIDPopulated sampleDeps ⟨"alice", 1⟩ ⟨"bob", 0⟩ 0
      = ⟨Outcome.returned (some "user not found"), ⟨"bob", 0⟩, 1,
          [Call.storeUsersGet ⟨"bob", 0⟩]⟩ :=
  ⟨(ensureUIDPopulated_spec sampleDeps ⟨"alice", 1⟩ ⟨"alice", 1⟩ 0).1 (by decide),
   rfl, rfl⟩

end Backend

namespace Server

/-! ## maybeZoektProcfile -/

/-- Claim C17. `maybeZoektProcfile` as a function of the value of
`INDEXED_SEARCH` and of `dataDir`: when the value does not parse as a boolean it
returns the error and no lines; when it parses as false, no lines and no error;
when it parses as true, exactly two lines and no error, the indexserver line
first and the webserver line second, both with the index directory
`filepath.Join(dataDir, "zoekt/index")`. -/
theorem maybeZoektProcfile_spec (E : Decls) (getenv : String → String) (dataDir : String) :
    (∀ b err, ParseBool (getenv "INDEXED_SEARCH") = (b, some err) →
      maybeZoektProcfile E getenv dataDir = (none, some err))
    ∧ (ParseBool (getenv "INDEXED_SEARCH") = (false, none) →
      maybeZoektProcfile E getenv dataDir = (none, none))
    ∧ (ParseBool (getenv "INDEXED_SEARCH") = (true, none) →
      maybeZoektProcfile E getenv dataDir =
        (some [
          "zoekt-indexserver: zoekt-sourcegraph-indexserver -sourcegraph_url http://"
            ++ E.frontendInternalHost ++ " -index " ++ E.Join dataDir "zoekt/index"
            ++ " -interval 1m",
          "zoekt-webserver: zoekt-webserver -rpc -pprof -listen "
            ++ E.zoektHost ++ " -index " ++ E.Join dataDir "zoekt/index"], none)) := by
  refine ⟨?_, ?_, ?_⟩
  · intro b err h
    unfold maybeZoektProcfile
    rw [h]
  · intro h
    unfold maybeZoektProcfile
    rw [h]
    rfl
  · intro h
    unfold maybeZoektProcfile
    rw [h]
    rfl

/-- Claim C17 evaluated with the data directory "/data": the value "true" gives
the two lines; "false" gives no lines and no error; an unset variable and the
value "yes" give the syntax error and no lines. -/
theorem maybeZoektProcfile_spec_witness :
    maybeZoektProcfile sampleDecls (sampleEnv "true") "/data" =
      (some [
        "zoekt-indexserver: zoekt-sourcegraph-indexserver -sourcegraph_url http://127.0.0.1:3090 -index /data/zoekt/index -interval 1m",
        "zoekt-webserver: zoekt-webserver -rpc -pprof -listen 127.0.0.1:6070 -index /data/zoekt/index"],
       none)
    ∧ maybeZoektProcfile sampleDecls (sampleEnv "false") "/data" = (none, none)
    ∧ maybeZoektProcfile sampleDecls (sampleEnv "") "/data" =
        (none, some ⟨"ParseBool", "", "invalid syntax"⟩)
    ∧ maybeZoektProcfile sampleDecls (sampleEnv "yes") "/data" =
        (none, some ⟨"ParseBool", "yes", "invalid syntax"⟩) :=
  ⟨by decide,
   (maybeZoektProcfile_spec sampleDecls (sampleEnv "false") "/data").2.1 (by decide),
   by decide, by decide⟩

end Server
